import Mathlib

/-!
Shallow embedding of the request/response mapping layer of the
`zipline.py` client library (files `zipline/http.py`, `zipline/errors.py`,
`zipline/utils.py`, `zipline/models.py`), together with proofs settling the
frozen claims C1..C10 about it.

Python values decoded from HTTP bodies are modelled by `PyVal`; Python
`dict`s are modelled as insertion-ordered association lists with unique
keys, with `dict.get`/`dict.update` semantics made explicit.
-/

namespace Zipline

/-- Python values that can appear as the decoded body of a response
(the result of `json.loads`, a `str`, or `bytes`), or as arguments to
exception constructors.  Bytes are sequences of naturals `< 256`. -/
inductive PyVal where
  | none
  | bool (b : Bool)
  | int (n : Int)
  | str (s : String)
  | list (xs : List PyVal)
  | dict (entries : List (String × PyVal))
  | bytes (bs : List Nat)

/-- Model: `d.get(k, default)` on an association-list dict: first binding wins
(keys are unique by construction, see `pyDictSet`). -/
def dictGet (entries : List (String × PyVal)) (k : String) (dflt : PyVal) : PyVal :=
  match entries with
  | [] => dflt
  | (k2, v) :: rest => if k2 = k then v else dictGet rest k dflt

/-- Model: `d[k] = v` on an insertion-ordered dict: replace the value in place when
the key exists, otherwise append the new binding (CPython `dict` semantics). -/
def pyDictSet (entries : List (String × PyVal)) (k : String) (v : PyVal) :
    List (String × PyVal) :=
  match entries with
  | [] => [(k, v)]
  | (k2, v2) :: rest => if k2 = k then (k2, v) :: rest else (k2, v2) :: pyDictSet rest k v

/-- Python `repr` of a string.  Modelled for strings containing neither
quotes nor characters needing escapes (the only ones reached by the claims);
CPython would additionally escape quotes and non-printables. -/
def pyReprStr (s : String) : String := "'" ++ s ++ "'"

mutual

/-- Python `repr` of a `PyVal` (used by `str()` on containers). -/
def pyRepr : PyVal → String
  | .none => "None"
  | .bool b => if b then "True" else "False"
  | .int n => toString n
  | .str s => pyReprStr s
  | .list xs => "[" ++ String.intercalate ", " (pyReprList xs) ++ "]"
  | .dict es => "\x7b" ++ String.intercalate ", " (pyReprEntries es) ++ "\x7d"
  | .bytes bs => "b'" ++ String.intercalate "" (pyReprBytes bs) ++ "'"

def pyReprList : List PyVal → List String
  | [] => []
  | v :: vs => pyRepr v :: pyReprList vs

def pyReprEntries : List (String × PyVal) → List String
  | [] => []
  | (k, v) :: es => (pyReprStr k ++ ": " ++ pyRepr v) :: pyReprEntries es

def pyReprBytes : List Nat → List String
  | [] => []
  | b :: bs => String.singleton (Char.ofNat b) :: pyReprBytes bs

end

/-- Python `str()` conversion, as used by f-string interpolation
(`f"{error}"`).  `str` of a `str` is the string itself; containers fall back
to `repr`. -/
def pyStr : PyVal → String
  | .str s => s
  | v => pyRepr v

/-- The exception classes of `zipline/errors.py` (plus nothing else: these
are the only classes the dispatcher can name). -/
inductive ExcClass where
  | ziplineError
  | httpError
  | unhandledError
  | badRequest
  | forbidden
  | notFound
  | payloadTooLarge
  | rateLimited
  | serverError
  | notAuthenticated
deriving DecidableEq

/-- Which classes inherit `HTTPError.__init__(self, message, code)`
(`errors.py` lines 46-114): every class except the plain `ZiplineError`
base, whose `__init__` is `Exception.__init__` and accepts any arguments. -/
def inheritsHTTPErrorInit : ExcClass → Bool
  | .ziplineError => false
  | _ => true

/-- A successfully constructed exception instance: either an `HTTPError`
(carrying the `message` and `code` attributes set by
`HTTPError.__init__`), or a plain `Exception` carrying its argument
tuple. -/
inductive ExcInst where
  | httpErr (cls : ExcClass) (message : PyVal) (code : PyVal)
  | plain (cls : ExcClass) (args : List PyVal)

/-- Calling an exception class with a list of positional arguments.
`HTTPError.__init__` declares exactly two required parameters
`(message, code)`, so any call on an `HTTPError` subclass with a
different arity is a `TypeError` (modelled as `Option.none`). -/
def construct (cls : ExcClass) (args : List PyVal) : Option ExcInst :=
  if inheritsHTTPErrorInit cls then
    match args with
    | [m, c] => some (.httpErr cls m c)
    | _ => none
  else
    some (.plain cls args)

/-- The outcome of one `HTTPClient.request` call, after the response has
been decoded: return a value, raise a constructed exception, or crash with
a `TypeError` because an exception constructor was called with the wrong
arity. -/
inductive Outcome where
  | success (data : PyVal)
  | raised (e : ExcInst)
  | typeError

/-- Turn the result of an exception-constructor call at a `raise` site into
an outcome. -/
def raiseOutcome : Option ExcInst → Outcome
  | some e => .raised e
  | Option.none => .typeError

/-- The status-code dispatch of `HTTPClient.request` (`http.py` lines
108-130), applied to the already-decoded body `data`:

* `error = data.get("error", "") if isinstance(data, Dict) else data`
* `400` → `raise BadRequest(f"400: \x7berror\x7d")`
* `401` → `raise NotAuthenticated(f"\x7berror\x7d")`
* `403` → `raise Forbidden("You cannot access this resource.")`
* `404` → `raise NotFound(f"Requested resource not found.")`
* `405 <= status < 500` → `raise ZiplineError(f"\x7bstatus\x7d: \x7berror\x7d")`
* `status >= 500` → `raise ServerError(f"\x7bstatus\x7d")`
* `200 <= status < 300` → `return data`
* otherwise → `raise UnhandledError()`. -/
def statusDispatch (status : Nat) (data : PyVal) : Outcome :=
  let error : PyVal :=
    match data with
    | .dict es => dictGet es "error" (.str "")
    | d => d
  if status = 400 then
    raiseOutcome (construct .badRequest [.str ("400: " ++ pyStr error)])
  else if status = 401 then
    raiseOutcome (construct .notAuthenticated [.str (pyStr error)])
  else if status = 403 then
    raiseOutcome (construct .forbidden [.str "You cannot access this resource."])
  else if status = 404 then
    raiseOutcome (construct .notFound [.str "Requested resource not found."])
  else if 405 ≤ status ∧ status < 500 then
    raiseOutcome (construct .ziplineError [.str (toString status ++ ": " ++ pyStr error)])
  else if 500 ≤ status then
    raiseOutcome (construct .serverError [.str (toString status)])
  else if 200 ≤ status ∧ status < 300 then
    .success data
  else
    raiseOutcome (construct .unhandledError [])

/-! ### Request headers (`http.py` lines 97-106) -/

/-- First-match lookup in a string-valued dict. -/
def strDictLookup (d : List (String × String)) (k : String) : Option String :=
  match d with
  | [] => none
  | (k2, v) :: rest => if k2 = k then some v else strDictLookup rest k

/-- Model: `d[k] = v` on a string-valued insertion-ordered dict. -/
def strDictSet (d : List (String × String)) (k v : String) : List (String × String) :=
  match d with
  | [] => [(k, v)]
  | (k2, v2) :: rest => if k2 = k then (k2, v) :: rest else (k2, v2) :: strDictSet rest k v

/-- Model: `d.update(other)`: assign each binding of `other` in order. -/
def strDictUpdate (d : List (String × String)) (other : List (String × String)) :
    List (String × String) :=
  match other with
  | [] => d
  | (k, v) :: rest => strDictUpdate (strDictSet d k v) rest

/-- The header dictionary `HTTPClient.request` passes to
`session.request`: start from `User-Agent` and `Authorization`, merge
caller-supplied headers with `headers.update(...)` when present, then set
`Content-Type: application/json` when a `json` payload was supplied. -/
def buildHeaders (userAgent token : String) (callerHeaders : Option (List (String × String)))
    (hasJson : Bool) : List (String × String) :=
  let headers := [("User-Agent", userAgent), ("Authorization", token)]
  let headers :=
    match callerHeaders with
    | some hs => strDictUpdate headers hs
    | none => headers
  if hasJson then strDictSet headers "Content-Type" "application/json" else headers

/-! ### Response body decoding (`http.py` lines 80-91)

`response.text(encoding="utf-8")` is `str(body, "utf-8")` with strict error
handling, modelled by a strict UTF-8 decoder; `to_json` is `json.loads`,
modelled by a JSON parser over `PyVal`. -/

/-- Strict UTF-8 decoding of a byte sequence, following the table of
well-formed sequences (RFC 3629): rejects continuation-byte errors,
overlong encodings, surrogates and code points above `0x10FFFF`, as
the strict `utf-8` codec of CPython does. -/
def utf8DecodeChars : List Nat → Option (List Char)
  | [] => some []
  | b1 :: rest =>
    if b1 < 0x80 then
      match utf8DecodeChars rest with
      | some cs => some (Char.ofNat b1 :: cs)
      | none => none
    else if 0xC2 ≤ b1 ∧ b1 ≤ 0xDF then
      match rest with
      | b2 :: rest2 =>
        if 0x80 ≤ b2 ∧ b2 ≤ 0xBF then
          match utf8DecodeChars rest2 with
          | some cs => some (Char.ofNat ((b1 - 0xC0) * 0x40 + (b2 - 0x80)) :: cs)
          | none => none
        else none
      | [] => none
    else if 0xE0 ≤ b1 ∧ b1 ≤ 0xEF then
      match rest with
      | b2 :: b3 :: rest2 =>
        let lo2 := if b1 = 0xE0 then 0xA0 else 0x80
        let hi2 := if b1 = 0xED then 0x9F else 0xBF
        if (lo2 ≤ b2 ∧ b2 ≤ hi2) ∧ (0x80 ≤ b3 ∧ b3 ≤ 0xBF) then
          match utf8DecodeChars rest2 with
          | some cs =>
            some (Char.ofNat ((b1 - 0xE0) * 0x1000 + (b2 - 0x80) * 0x40 + (b3 - 0x80)) :: cs)
          | none => none
        else none
      | _ => none
    else if 0xF0 ≤ b1 ∧ b1 ≤ 0xF4 then
      match rest with
      | b2 :: b3 :: b4 :: rest2 =>
        let lo2 := if b1 = 0xF0 then 0x90 else 0x80
        let hi2 := if b1 = 0xF4 then 0x8F else 0xBF
        if (lo2 ≤ b2 ∧ b2 ≤ hi2) ∧ (0x80 ≤ b3 ∧ b3 ≤ 0xBF) ∧ (0x80 ≤ b4 ∧ b4 ≤ 0xBF) then
          match utf8DecodeChars rest2 with
          | some cs =>
            some (Char.ofNat
              ((b1 - 0xF0) * 0x40000 + (b2 - 0x80) * 0x1000 + (b3 - 0x80) * 0x40 + (b4 - 0x80))
              :: cs)
          | none => none
        else none
      | _ => none
    else none

/-- Model: `str(body, "utf-8")`: none models a raised `UnicodeDecodeError`. -/
def utf8Decode (bs : List Nat) : Option String :=
  match utf8DecodeChars bs with
  | some cs => some (String.mk cs)
  | none => none

/-- JSON insignificant whitespace. -/
def jsonWs (c : Char) : Bool :=
  c = ' ' || c = '\t' || c = '\n' || c = '\r'

/-- Drop leading JSON whitespace. -/
def skipWs : List Char → List Char
  | [] => []
  | c :: cs => if jsonWs c then skipWs cs else c :: cs

/-- One character of JSON string content (after escape processing).
`\uXXXX` escapes are not modelled (no claim exercises them): such input is
reported as a parse failure rather than decoded. -/
def parseJsonStringChars : List Char → Option (List Char × List Char)
  | [] => none
  | '"' :: rest => some ([], rest)
  | '\\' :: e :: rest =>
    let esc : Option Char :=
      match e with
      | '"' => some '"'
      | '\\' => some '\\'
      | '/' => some '/'
      | 'b' => some (Char.ofNat 8)
      | 'f' => some (Char.ofNat 12)
      | 'n' => some '\n'
      | 'r' => some (Char.ofNat 13)
      | 't' => some '\t'
      | _ => none
    match esc with
    | some c =>
      match parseJsonStringChars rest with
      | some (cs, r) => some (c :: cs, r)
      | none => none
    | none => none
  | c :: rest =>
    if c.toNat < 0x20 then none
    else
      match parseJsonStringChars rest with
      | some (cs, r) => some (c :: cs, r)
      | none => none

/-- A JSON string body (the opening quote already consumed). -/
def parseJsonString (cs : List Char) : Option (String × List Char) :=
  match parseJsonStringChars cs with
  | some (body, rest) => some (String.mk body, rest)
  | none => none

/-- A run of decimal digits. -/
def takeDigits : List Char → List Char × List Char
  | [] => ([], [])
  | c :: cs =>
    if c.isDigit then
      let (ds, r) := takeDigits cs
      (c :: ds, r)
    else ([], c :: cs)

/-- Digits to a natural number (most significant first). -/
def digitsToNat (ds : List Char) : Nat :=
  ds.foldl (fun acc c => acc * 10 + (c.toNat - 48)) 0

/-- A JSON integer literal (leading zeros rejected as in the JSON grammar).
Fractional and exponent parts (JSON floats) are not modelled — no claim
involves non-integer numbers — and are reported as parse failures. -/
def parseJsonNat (cs : List Char) : Option (Nat × List Char) :=
  let (ds, rest) := takeDigits cs
  match ds with
  | [] => none
  | d :: ds2 =>
    if d = '0' ∧ ds2 ≠ [] then none
    else
      match rest with
      | '.' :: _ => none
      | 'e' :: _ => none
      | 'E' :: _ => none
      | _ => some (digitsToNat (d :: ds2), rest)

mutual

/-- One JSON value (leading whitespace allowed), in the fragment of
`json.loads` described above. -/
def parseJsonVal : Nat → List Char → Option (PyVal × List Char)
  | 0, _ => none
  | fuel + 1, cs0 =>
    match skipWs cs0 with
    | 'n' :: 'u' :: 'l' :: 'l' :: rest => some (.none, rest)
    | 't' :: 'r' :: 'u' :: 'e' :: rest => some (.bool true, rest)
    | 'f' :: 'a' :: 'l' :: 's' :: 'e' :: rest => some (.bool false, rest)
    | '"' :: rest =>
      match parseJsonString rest with
      | some (s, r) => some (.str s, r)
      | none => none
    | '-' :: rest =>
      match parseJsonNat rest with
      | some (n, r) => some (.int (-(n : Int)), r)
      | none => none
    | c :: rest =>
      if c = '[' then
        match skipWs rest with
        | ']' :: r => some (.list [], r)
        | rest2 => parseJsonArrayRest fuel rest2 []
      else if c = '\x7b' then
        match skipWs rest with
        | '\x7d' :: r => some (.dict [], r)
        | rest2 => parseJsonObjRest fuel rest2 []
      else if c.isDigit then
        match parseJsonNat (c :: rest) with
        | some (n, r) => some (.int (n : Int), r)
        | none => none
      else none
    | [] => none

/-- The elements of a JSON array after the first `[` (and any following
whitespace), accumulating parsed elements. -/
def parseJsonArrayRest : Nat → List Char → List PyVal → Option (PyVal × List Char)
  | 0, _, _ => none
  | fuel + 1, cs, acc =>
    match parseJsonVal fuel cs with
    | some (v, r) =>
      match skipWs r with
      | ',' :: r2 => parseJsonArrayRest fuel r2 (acc ++ [v])
      | ']' :: r2 => some (.list (acc ++ [v]), r2)
      | _ => none
    | none => none

/-- The members of a JSON object after the opening brace (and any following
whitespace); duplicate keys follow CPython (`dict` assignment: last value
wins, first position kept). -/
def parseJsonObjRest : Nat → List Char → List (String × PyVal) → Option (PyVal × List Char)
  | 0, _, _ => none
  | fuel + 1, cs, acc =>
    match skipWs cs with
    | '"' :: r =>
      match parseJsonString r with
      | some (k, r2) =>
        match skipWs r2 with
        | ':' :: r3 =>
          match parseJsonVal fuel r3 with
          | some (v, r4) =>
            match skipWs r4 with
            | ',' :: r5 => parseJsonObjRest fuel r5 (pyDictSet acc k v)
            | '\x7d' :: r5 => some (.dict (pyDictSet acc k v), r5)
            | _ => none
          | none => none
        | _ => none
      | none => none
    | _ => none

end

/-- Model: `json.loads`: parse one value and require that only whitespace
follows; `none` models a raised `JSONDecodeError`. -/
def toJson (s : String) : Option PyVal :=
  match parseJsonVal (2 * s.data.length + 4) s.data with
  | some (v, rest) => if skipWs rest = [] then some v else none
  | none => none

/-- An HTTP response as `HTTPClient.request` observes it: numeric status,
the value of `response.headers.get("Content-Type")`, and the raw body
bytes. -/
structure Response where
  status : Nat
  contentType : Option String
  body : List Nat

/-- Model: `HTTPClient._json_text_or_bytes` (`http.py` lines 80-91): return raw
bytes when `Content-Type` is exactly `application/octet-stream`; otherwise
decode the body as UTF-8 text and parse it as JSON exactly when
`Content-Type` is exactly `application/json`, else return the text.
`none` models a raised decoding error (`UnicodeDecodeError` or
`JSONDecodeError`), which `request` does not catch. -/
def jsonTextOrBytes (r : Response) : Option PyVal :=
  if r.contentType = some "application/octet-stream" then some (.bytes r.body)
  else
    match utf8Decode r.body with
    | some text =>
      if r.contentType = some "application/json" then toJson text
      else some (.str text)
    | none => none

/-- The result of one full `HTTPClient.request` call on a response:
either the status-dispatch outcome on the decoded body, or a propagated
body-decoding exception. -/
inductive RequestResult where
  | outcome (o : Outcome)
  | decodeRaise

/-- Model: `HTTPClient.request` after the response arrives: decode the body with
`_json_text_or_bytes`, then run the status dispatch. -/
def requestOutcome (r : Response) : RequestResult :=
  match jsonTextOrBytes r with
  | some data => .outcome (statusDispatch r.status data)
  | none => .decodeRaise

/-! ### Quota payloads (`utils.py` lines 251-290, `enums.py` `QuotaType`) -/

/-- Model: `enums.QuotaType`, a string-valued enum. -/
inductive QuotaType where
  | by_bytes
  | by_files
  | none
deriving DecidableEq

/-- Model: `QuotaType.value`. -/
def QuotaType.value : QuotaType → String
  | .by_bytes => "BY_BYTES"
  | .by_files => "BY_FILES"
  | .none => "NONE"

/-- The `max_urls` parameter of `generate_quota_payload`: either the
`MISSING` sentinel default (a unique object, compared by identity with
`is not MISSING`), or a caller-supplied `Optional[int]`. -/
inductive MaybeMissing where
  | missing
  | given (v : Option Int)

/-- A Python `Optional[int]` as a `PyVal`. -/
def optIntToPyVal : Option Int → PyVal
  | Option.none => .none
  | some n => .int n

/-- First-match lookup returning `Option`. -/
def pyDictLookup (entries : List (String × PyVal)) (k : String) : Option PyVal :=
  match entries with
  | [] => Option.none
  | (k2, v) :: rest => if k2 = k then some v else pyDictLookup rest k

/-- Model: `k in d`. -/
def pyDictHasKey (entries : List (String × PyVal)) (k : String) : Bool :=
  match entries with
  | [] => false
  | (k2, _) :: rest => if k2 = k then true else pyDictHasKey rest k

/-- Model: `utils.generate_quota_payload` (`utils.py` lines 270-290): start from
`\x7b"filesType": type.value\x7d`; `by_bytes` adds `maxBytes = str(value)`,
`by_files` adds `maxFiles = value`, `none` adds both keys as `null`; then
`maxUrls` is added exactly when `max_urls is not MISSING`. -/
def generate_quota_payload (type : QuotaType) (value : Option Int) (max_urls : MaybeMissing) :
    List (String × PyVal) :=
  let payload : List (String × PyVal) := [("filesType", .str type.value)]
  let payload :=
    match type with
    | .by_bytes => pyDictSet payload "maxBytes" (.str (pyStr (optIntToPyVal value)))
    | .by_files => pyDictSet payload "maxFiles" (optIntToPyVal value)
    | .none => pyDictSet (pyDictSet payload "maxBytes" .none) "maxFiles" .none
  match max_urls with
  | .missing => payload
  | .given v => pyDictSet payload "maxUrls" (optIntToPyVal v)

/-! ### Magic-number MIME sniffing (`utils.py` lines 301-334) -/

/-- Python slice `data[a:b]` on bytes (indices clamp). -/
def pySlice (data : List Nat) (a b : Nat) : List Nat :=
  (data.drop a).take (b - a)

/-- Model: `data.startswith(sig)`. -/
def pyStartsWith (data sig : List Nat) : Bool :=
  decide (data.take sig.length = sig)

/-- The 8-byte PNG signature. -/
def pngSig : List Nat := [0x89, 0x50, 0x4e, 0x47, 0x0d, 0x0a, 0x1a, 0x0a]

/-- Model: `b"JFIF"`. -/
def jfifBytes : List Nat := [0x4a, 0x46, 0x49, 0x46]

/-- Model: `b"Exif"`. -/
def exifBytes : List Nat := [0x45, 0x78, 0x69, 0x66]

/-- Model: `b"RIFF"`. -/
def riffBytes : List Nat := [0x52, 0x49, 0x46, 0x46]

/-- Model: `b"WEBP"`. -/
def webpBytes : List Nat := [0x57, 0x45, 0x42, 0x50]

/-- Model: `b"GIF87a"`. -/
def gif87Bytes : List Nat := [0x47, 0x49, 0x46, 0x38, 0x37, 0x61]

/-- Model: `b"GIF89a"`. -/
def gif89Bytes : List Nat := [0x47, 0x49, 0x46, 0x38, 0x39, 0x61]

/-- Model: `b"ftypMSNV"`. -/
def ftypMsnvBytes : List Nat := [0x66, 0x74, 0x79, 0x70, 0x4d, 0x53, 0x4e, 0x56]

/-- Model: `b"ftypisom"`. -/
def ftypIsomBytes : List Nat := [0x66, 0x74, 0x79, 0x70, 0x69, 0x73, 0x6f, 0x6d]

/-- Model: `utils.guess_mimetype_by_magicnumber`, branch for branch. -/
def guess_mimetype_by_magicnumber (data : List Nat) : Option String :=
  if pySlice data 0 3 = [0xff, 0xd8, 0xff] ∨ pySlice data 6 10 = jfifBytes ∨
      pySlice data 6 10 = exifBytes then
    some "image/jpeg"
  else if pyStartsWith data pngSig then
    some "image/png"
  else if pyStartsWith data riffBytes ∧ pySlice data 8 12 = webpBytes then
    some "image/webp"
  else if pyStartsWith data gif87Bytes ∨ pyStartsWith data gif89Bytes then
    some "image/gif"
  else if pySlice data 3 11 = ftypMsnvBytes ∨ pySlice data 3 11 = ftypIsomBytes then
    some "video/mp4"
  else if pySlice data 0 4 = [0x1a, 0x45, 0xdf, 0xa3] then
    some "video/x-matroska"
  else if pySlice data 0 2 = [0xff, 0xfb] ∨ pySlice data 0 2 = [0xff, 0xf3] ∨
      pySlice data 0 2 = [0xff, 0xf2] ∨ pySlice data 0 3 = [0x49, 0x44, 0x43] then
    some "audio/mpeg"
  else if pySlice data 0 4 = [0x6d, 0x6f, 0x6f, 0x76] then
    some "video/quicktime"
  else
    Option.none

/-- The disjunction of the branch guards of
`guess_mimetype_by_magicnumber`: `data` matches one of the known binary
signatures. -/
def matchesKnownSignature (data : List Nat) : Prop :=
  (pySlice data 0 3 = [0xff, 0xd8, 0xff] ∨ pySlice data 6 10 = jfifBytes ∨
      pySlice data 6 10 = exifBytes) ∨
  pyStartsWith data pngSig = true ∨
  (pyStartsWith data riffBytes ∧ pySlice data 8 12 = webpBytes) ∨
  (pyStartsWith data gif87Bytes ∨ pyStartsWith data gif89Bytes) ∨
  (pySlice data 3 11 = ftypMsnvBytes ∨ pySlice data 3 11 = ftypIsomBytes) ∨
  pySlice data 0 4 = [0x1a, 0x45, 0xdf, 0xa3] ∨
  (pySlice data 0 2 = [0xff, 0xfb] ∨ pySlice data 0 2 = [0xff, 0xf3] ∨
      pySlice data 0 2 = [0xff, 0xf2] ∨ pySlice data 0 3 = [0x49, 0x44, 0x43]) ∨
  pySlice data 0 4 = [0x6d, 0x6f, 0x6f, 0x76]

/-! ### Avatar payloads (`utils.py` lines 221-239, `models.py` `Avatar`)

`base64.b64encode` / `base64.b64decode` on the standard alphabet with `=`
padding.  The decoder is modelled on canonically padded input (the only
form the encoder produces); CPython additionally discards characters
outside the alphabet, which no claim exercises. -/

/-- The standard base64 alphabet. -/
def b64Alphabet : List Char :=
  "ABCDEFGHIJKLMNOPQRSTUVWXYZabcdefghijklmnopqrstuvwxyz0123456789+/".data

/-- The base64 character of a 6-bit value. -/
def b64Char (n : Nat) : Char := b64Alphabet.getD n 'A'

/-- The 6-bit value of a base64 character, `none` for characters outside
the alphabet (in particular for `=`). -/
def b64CharVal (c : Char) : Option Nat :=
  if c ∈ b64Alphabet then some (b64Alphabet.indexOf c) else Option.none

/-- Model: `base64.b64encode`: 3-byte groups to 4 characters, with `=` padding
for a trailing group of 1 or 2 bytes. -/
def b64EncodeChars : List Nat → List Char
  | [] => []
  | [a] => [b64Char (a / 4), b64Char (a % 4 * 16), '=', '=']
  | [a, b] => [b64Char (a / 4), b64Char (a % 4 * 16 + b / 16), b64Char (b % 16 * 4), '=']
  | a :: b :: c :: rest =>
    b64Char (a / 4) :: b64Char (a % 4 * 16 + b / 16) :: b64Char (b % 16 * 4 + c / 64) ::
      b64Char (c % 64) :: b64EncodeChars rest

/-- Model: `base64.b64encode(data).decode("ascii")`. -/
def b64Encode (bs : List Nat) : String := String.mk (b64EncodeChars bs)

/-- Model: `base64.b64decode` on canonically padded input: groups of four
characters, where `=` padding may close the final group. -/
def b64DecodeChars : List Char → Option (List Nat)
  | [] => some []
  | c1 :: c2 :: c3 :: c4 :: rest =>
    match b64CharVal c1, b64CharVal c2 with
    | some v1, some v2 =>
      if c3 = '=' then
        if c4 = '=' ∧ rest = [] then some [v1 * 4 + v2 / 16] else Option.none
      else
        match b64CharVal c3 with
        | some v3 =>
          if c4 = '=' then
            if rest = [] then some [v1 * 4 + v2 / 16, v2 % 16 * 16 + v3 / 4]
            else Option.none
          else
            match b64CharVal c4 with
            | some v4 =>
              match b64DecodeChars rest with
              | some bs =>
                some ((v1 * 4 + v2 / 16) :: (v2 % 16 * 16 + v3 / 4) ::
                  (v3 % 4 * 64 + v4) :: bs)
              | Option.none => Option.none
            | Option.none => Option.none
        | Option.none => Option.none
    | _, _ => Option.none
  | _ => Option.none

/-- Model: `base64.b64decode` of a string. -/
def b64Decode (s : String) : Option (List Nat) := b64DecodeChars s.data

/-- Model: `utils.build_avatar_payload`. -/
def build_avatar_payload (mime : String) (data : List Nat) : String :=
  "data:" ++ mime ++ ";base64," ++ b64Encode data

/-- Python `str.split(";")`: split on every occurrence, keeping empty
segments; the result is always nonempty. -/
def pySplitOn (sep : Char) : List Char → List (List Char)
  | [] => [[]]
  | c :: rest =>
    if c = sep then [] :: pySplitOn sep rest
    else
      match pySplitOn sep rest with
      | seg :: segs => (c :: seg) :: segs
      | [] => [[c]]

/-- Python `s[n:]`. -/
def pyStrDrop (s : String) (n : Nat) : String := String.mk (s.data.drop n)

/-- Model: `Avatar.from_coded_string` (`models.py` lines 2372-2387) composed with
`Avatar.__init__`: unpack `coded_str.split(";")` into exactly two parts
(a `ValueError` otherwise, modelled as `none`), strip the `data:` and
`base64,` markers, base64-decode, then apply
`self.mime = mime or guess_mimetype_by_magicnumber(data[:16])`, raising
`ZiplineError` (modelled as `none`) when that leaves no MIME type.
The result is the recovered `(mime, data)` pair of the `Avatar`. -/
def from_coded_string (s : String) : Option (String × List Nat) :=
  match pySplitOn ';' s.data with
  | [part1, part2] =>
    let mime_part := pyStrDrop (String.mk part1) 5
    match b64Decode (pyStrDrop (String.mk part2) 7) with
    | some data =>
      if mime_part = "" then
        match guess_mimetype_by_magicnumber (data.take 16) with
        | some m => some (m, data)
        | Option.none => Option.none
      else
        some (mime_part, data)
    | Option.none => Option.none
  | _ => Option.none

/-! ### Base-URL normalization (`http.py` lines 68-75)

`HTTPClient.__init__` does `url = URL(base_url)` and keeps only
`f"\x7burl.scheme\x7d://\x7burl.host\x7d"`.  `yarl.URL` splits an absolute URL into
scheme (before the first `:`), authority (after `://`, up to the first of
`/`, `?`, `#`), and within the authority discards userinfo (up to the last
`@`) and the port (after the first `:` of the host part); scheme and host
are normalized to lowercase. -/

/-- Split a character list at the first character satisfying `p`. -/
def breakAt (p : Char → Bool) : List Char → List Char × List Char
  | [] => ([], [])
  | c :: cs =>
    if p c then ([], c :: cs)
    else
      let (xs, ys) := breakAt p cs
      (c :: xs, ys)

/-- The part of the authority after the last `@` (the whole authority when
there is no userinfo). -/
def afterLastAt (cs : List Char) : List Char :=
  ((breakAt (fun c => c = '@') cs.reverse).1).reverse

/-- Model: `yarl.URL` parsing of an absolute URL, restricted to the fields
`HTTPClient.__init__` reads: `(url.scheme, url.host)`. -/
def parseUrl (cs : List Char) : Option (List Char × List Char) :=
  match breakAt (fun c => c = ':') cs with
  | (scheme, ':' :: '/' :: '/' :: rest) =>
    let authority := (breakAt (fun c => c = '/' || c = '?' || c = '#') rest).1
    let hostport := afterLastAt authority
    let host := (breakAt (fun c => c = ':') hostport).1
    some (scheme.map Char.toLower, host.map Char.toLower)
  | _ => Option.none

/-- Model: `HTTPClient.__init__`: `self.base_url = f"\x7burl.scheme\x7d://\x7burl.host\x7d"`
for a well-formed absolute base URL. -/
def normalizeBaseUrl (s : String) : Option String :=
  match parseUrl s.data with
  | some (scheme, host) => some (String.mk (scheme ++ [':', '/', '/'] ++ host))
  | Option.none => Option.none

/-! ### ISO timestamps (`utils.py` lines 59-66)

`parse_iso_timestamp` is
`datetime.strptime(s, "%Y-%m-%dT%H:%M:%S.%fZ").replace(tzinfo=utc)`.
The CPython `_strptime` module compiles the format to the regular expression
`(\d\d\d\d)-(1[0-2]|0[1-9]|[1-9])-(3[01]|[12]\d|0[1-9]|[1-9])T` +
`(2[0-3]|[0-1]\d|\d):([0-5]\d|\d):(6[0-1]|[0-5]\d|\d)\.([0-9]\x7b1,6\x7d)Z`,
requires it to consume the whole string, right-pads the fraction to six
digits, and passes the fields to the `datetime` constructor, which
validates ranges (`ValueError` on failure, modelled as `none`).  Each
alternatives of each field are tried in regex order with backtracking, modelled
by candidate lists in priority order and first-success sequencing.

`to_iso_format` is `dt.strftime("%Y-%m-%dT%H:%M:%S.%fZ")`: `%m %d %H %M
%S` are zero-padded to two digits and `%f` to six; `%Y` is delegated to
the platform `strftime`, modelled here as glibc prints it — the year as
an unpadded decimal number (so years below 1000 print with fewer than
four digits). -/

/-- A `datetime.datetime` as this library uses it: Gregorian fields plus
whether `tzinfo` is `timezone.utc`. -/
structure PyDateTime where
  year : Nat
  month : Nat
  day : Nat
  hour : Nat
  minute : Nat
  second : Nat
  microsecond : Nat
  utc : Bool

/-- Gregorian leap year. -/
def isLeapYear (y : Nat) : Bool :=
  decide (y % 4 = 0 ∧ (¬y % 100 = 0 ∨ y % 400 = 0))

/-- Days in a month of the proleptic Gregorian calendar. -/
def daysInMonth (y m : Nat) : Nat :=
  if m = 2 then (if isLeapYear y then 29 else 28)
  else if m = 4 ∨ m = 6 ∨ m = 9 ∨ m = 11 then 30
  else 31

/-- The range checks of the `datetime` constructor
(`MINYEAR = 1`, `MAXYEAR = 9999`). -/
def datetimeValid (y mo d h mi s us : Nat) : Bool :=
  decide (1 ≤ y ∧ y ≤ 9999 ∧ 1 ≤ mo ∧ mo ≤ 12 ∧ 1 ≤ d ∧ d ≤ daysInMonth y mo ∧
    h ≤ 23 ∧ mi ≤ 59 ∧ s ≤ 59 ∧ us ≤ 999999)

/-- The decimal digit character of `n` (for `n < 10`; larger values are
clamped, never reached). -/
def digitChar (n : Nat) : Char :=
  match n with
  | 0 => '0'
  | 1 => '1'
  | 2 => '2'
  | 3 => '3'
  | 4 => '4'
  | 5 => '5'
  | 6 => '6'
  | 7 => '7'
  | 8 => '8'
  | _ => '9'

/-- Model: `\d` of the `_strptime` regex. -/
def isDig (c : Char) : Bool :=
  48 ≤ c.toNat && c.toNat ≤ 57

/-- The value of a digit character. -/
def digVal (c : Char) : Nat := c.toNat - 48

/-- First `some` in a list (the backtracking order of a regex
alternation: earlier alternatives win). -/
def firstHit : List (Option α) → Option α
  | [] => Option.none
  | some a :: _ => some a
  | Option.none :: l => firstHit l

/-- Model: `%Y` = `(\d\d\d\d)`: exactly four digits. -/
def yearCands : List Char → List (Nat × List Char)
  | c1 :: c2 :: c3 :: c4 :: rest =>
    if isDig c1 && isDig c2 && isDig c3 && isDig c4 then
      [(digVal c1 * 1000 + digVal c2 * 100 + digVal c3 * 10 + digVal c4, rest)]
    else []
  | _ => []

/-- Model: `%m` = `(1[0-2]|0[1-9]|[1-9])`, candidates in regex order. -/
def monthCands : List Char → List (Nat × List Char)
  | c1 :: c2 :: rest =>
    (if c1 = '1' ∧ isDig c2 ∧ digVal c2 ≤ 2 then [(10 + digVal c2, rest)] else []) ++
    (if c1 = '0' ∧ isDig c2 ∧ 1 ≤ digVal c2 then [(digVal c2, rest)] else []) ++
    (if isDig c1 ∧ 1 ≤ digVal c1 then [(digVal c1, c2 :: rest)] else [])
  | [c1] => if isDig c1 ∧ 1 ≤ digVal c1 then [(digVal c1, [])] else []
  | [] => []

/-- Model: `%d` = `(3[01]|[12]\d|0[1-9]|[1-9])`. -/
def dayCands : List Char → List (Nat × List Char)
  | c1 :: c2 :: rest =>
    (if c1 = '3' ∧ isDig c2 ∧ digVal c2 ≤ 1 then [(30 + digVal c2, rest)] else []) ++
    (if (c1 = '1' ∨ c1 = '2') ∧ isDig c2 then [(digVal c1 * 10 + digVal c2, rest)] else []) ++
    (if c1 = '0' ∧ isDig c2 ∧ 1 ≤ digVal c2 then [(digVal c2, rest)] else []) ++
    (if isDig c1 ∧ 1 ≤ digVal c1 then [(digVal c1, c2 :: rest)] else [])
  | [c1] => if isDig c1 ∧ 1 ≤ digVal c1 then [(digVal c1, [])] else []
  | [] => []

/-- Model: `%H` = `(2[0-3]|[0-1]\d|\d)`. -/
def hourCands : List Char → List (Nat × List Char)
  | c1 :: c2 :: rest =>
    (if c1 = '2' ∧ isDig c2 ∧ digVal c2 ≤ 3 then [(20 + digVal c2, rest)] else []) ++
    (if (c1 = '0' ∨ c1 = '1') ∧ isDig c2 then [(digVal c1 * 10 + digVal c2, rest)] else []) ++
    (if isDig c1 then [(digVal c1, c2 :: rest)] else [])
  | [c1] => if isDig c1 then [(digVal c1, [])] else []
  | [] => []

/-- Model: `%M` = `([0-5]\d|\d)`. -/
def minuteCands : List Char → List (Nat × List Char)
  | c1 :: c2 :: rest =>
    (if isDig c1 ∧ digVal c1 ≤ 5 ∧ isDig c2 then [(digVal c1 * 10 + digVal c2, rest)] else []) ++
    (if isDig c1 then [(digVal c1, c2 :: rest)] else [])
  | [c1] => if isDig c1 then [(digVal c1, [])] else []
  | [] => []

/-- Model: `%S` = `(6[0-1]|[0-5]\d|\d)` (leap seconds pass the regex and are
rejected by the `datetime` constructor). -/
def secondCands : List Char → List (Nat × List Char)
  | c1 :: c2 :: rest =>
    (if c1 = '6' ∧ isDig c2 ∧ digVal c2 ≤ 1 then [(60 + digVal c2, rest)] else []) ++
    (if isDig c1 ∧ digVal c1 ≤ 5 ∧ isDig c2 then [(digVal c1 * 10 + digVal c2, rest)] else []) ++
    (if isDig c1 then [(digVal c1, c2 :: rest)] else [])
  | [c1] => if isDig c1 then [(digVal c1, [])] else []
  | [] => []

/-- Model: `%f` = `([0-9]\x7b1,6\x7d)`, greedy with backtracking: up to six digits,
longest first; `_strptime` right-pads the matched digits to six. -/
def fracCands (cs : List Char) : List (Nat × List Char) :=
  let ds := (takeDigits cs).1.take 6
  (List.range ds.length).map fun i =>
    let k := ds.length - i
    (digitsToNat (ds.take k) * 10 ^ (6 - k), cs.drop k)

/-- Model: `%f` followed by the literal `Z` and the end of the string. -/
def stageFrac (cs : List Char) : Option Nat :=
  firstHit ((fracCands cs).map fun p =>
    match p.2 with
    | ['Z'] => some p.1
    | _ => Option.none)

/-- Model: `%S` `.` `%f` `Z` end. -/
def stageSecond (cs : List Char) : Option (Nat × Nat) :=
  firstHit ((secondCands cs).map fun p =>
    match p.2 with
    | '.' :: r =>
      match stageFrac r with
      | some us => some (p.1, us)
      | Option.none => Option.none
    | _ => Option.none)

/-- Model: `%M` `:` tail. -/
def stageMinute (cs : List Char) : Option (Nat × Nat × Nat) :=
  firstHit ((minuteCands cs).map fun p =>
    match p.2 with
    | ':' :: r =>
      match stageSecond r with
      | some t => some (p.1, t)
      | Option.none => Option.none
    | _ => Option.none)

/-- Model: `%H` `:` tail. -/
def stageHour (cs : List Char) : Option (Nat × Nat × Nat × Nat) :=
  firstHit ((hourCands cs).map fun p =>
    match p.2 with
    | ':' :: r =>
      match stageMinute r with
      | some t => some (p.1, t)
      | Option.none => Option.none
    | _ => Option.none)

/-- Model: `%d` `T` tail. -/
def stageDay (cs : List Char) : Option (Nat × Nat × Nat × Nat × Nat) :=
  firstHit ((dayCands cs).map fun p =>
    match p.2 with
    | 'T' :: r =>
      match stageHour r with
      | some t => some (p.1, t)
      | Option.none => Option.none
    | _ => Option.none)

/-- Model: `%m` `-` tail. -/
def stageMonth (cs : List Char) : Option (Nat × Nat × Nat × Nat × Nat × Nat) :=
  firstHit ((monthCands cs).map fun p =>
    match p.2 with
    | '-' :: r =>
      match stageDay r with
      | some t => some (p.1, t)
      | Option.none => Option.none
    | _ => Option.none)

/-- The whole format `%Y-%m-%dT%H:%M:%S.%fZ` against the whole string. -/
def stageYear (cs : List Char) : Option (Nat × Nat × Nat × Nat × Nat × Nat × Nat) :=
  firstHit ((yearCands cs).map fun p =>
    match p.2 with
    | '-' :: r =>
      match stageMonth r with
      | some t => some (p.1, t)
      | Option.none => Option.none
    | _ => Option.none)

/-- Model: `utils.parse_iso_timestamp`: `strptime` with the fixed format, then
`.replace(tzinfo=timezone.utc)`. -/
def parse_iso_timestamp (s : String) : Option PyDateTime :=
  match stageYear s.data with
  | some (y, mo, d, h, mi, sec, us) =>
    if datetimeValid y mo d h mi sec us then
      some ⟨y, mo, d, h, mi, sec, us, true⟩
    else Option.none
  | Option.none => Option.none

/-- Two-digit zero-padded field (`%m %d %H %M %S`). -/
def pad2 (n : Nat) : List Char := [digitChar (n / 10 % 10), digitChar (n % 10)]

/-- Six-digit zero-padded field (`%f`). -/
def pad6 (n : Nat) : List Char :=
  [digitChar (n / 100000 % 10), digitChar (n / 10000 % 10), digitChar (n / 1000 % 10),
   digitChar (n / 100 % 10), digitChar (n / 10 % 10), digitChar (n % 10)]

/-- Model: `%Y` as glibc prints it: the year as an unpadded decimal number. -/
def natDecimal (n : Nat) : List Char :=
  if _h : n < 10 then [digitChar n]
  else natDecimal (n / 10) ++ [digitChar (n % 10)]
termination_by n
decreasing_by exact Nat.div_lt_self (by omega) (by omega)

/-- Model: `utils.to_iso_format`: `dt.strftime("%Y-%m-%dT%H:%M:%S.%fZ")`. -/
def to_iso_format (dt : PyDateTime) : String :=
  String.mk (natDecimal dt.year ++ '-' :: pad2 dt.month ++ '-' :: pad2 dt.day ++
    'T' :: pad2 dt.hour ++ ':' :: pad2 dt.minute ++ ':' :: pad2 dt.second ++
    '.' :: pad6 dt.microsecond ++ ['Z'])

/-- Four-digit zero-padded year. -/
def pad4 (n : Nat) : List Char :=
  [digitChar (n / 1000 % 10), digitChar (n / 100 % 10), digitChar (n / 10 % 10),
   digitChar (n % 10)]

/-- The characters of a string of the exact form
`YYYY-MM-DDTHH:MM:SS.ffffffZ` claimed by the spec: every string of that
form with the given field values renders as `renderIso` of those values. -/
def renderIso (y mo d h mi s us : Nat) : List Char :=
  pad4 y ++ '-' :: pad2 mo ++ '-' :: pad2 d ++ 'T' :: pad2 h ++ ':' :: pad2 mi ++
    ':' :: pad2 s ++ '.' :: pad6 us ++ ['Z']

/-! ## Theorems -/

/-- C1: the claim says each status in \x7b400, 401, 403, 404, 413, 429\x7d raises
its dedicated error type carrying `code` equal to the status, 405-499
otherwise the generic client error, 500-599 the server error.  The code
cannot do this: every raise site for 400, 401, 403, 404 and ≥ 500 calls an
`HTTPError` subclass with a single argument although `HTTPError.__init__`
requires `(message, code)`, so the call itself raises `TypeError`; and 413
and 429 fall into the generic `405 <= status < 500` branch, which raises a
plain `ZiplineError` (no `code` attribute), never `PayloadTooLarge` or
`RateLimited`. -/
theorem c1_status_mapping_code_bug :
    statusDispatch 400 (.dict [("error", .str "bad input")]) = .typeError ∧
    statusDispatch 401 (.str "x") = .typeError ∧
    statusDispatch 403 (.str "x") = .typeError ∧
    statusDispatch 404 (.str "x") = .typeError ∧
    statusDispatch 413 (.dict [("error", .str "too large")]) =
      .raised (.plain .ziplineError [.str "413: too large"]) ∧
    statusDispatch 429 (.str "slow down") =
      .raised (.plain .ziplineError [.str "429: slow down"]) ∧
    statusDispatch 500 (.str "oops") = .typeError :=
  ⟨rfl, rfl, rfl, rfl, rfl, rfl, rfl⟩

/-- C2: the claim says the message of the raised error equals the
`error` field of the body (for status 400 with body `\x7b"error": "bad input"\x7d`, message
`"bad input"`).  On this code no message is ever observable for status
400: `BadRequest(f"400: \x7berror\x7d")` passes one argument to a constructor
requiring `(message, code)`, so the dispatch ends in `TypeError` — and the
single string it tried to pass is `"400: bad input"`, not `"bad input"`
(likewise 403 and 404 use fixed strings ignoring the body). -/
theorem c2_error_message_code_bug :
    statusDispatch 400 (.dict [("error", .str "bad input")]) = .typeError ∧
    construct .badRequest [.str ("400: " ++ pyStr (.str "bad input"))] = Option.none ∧
    statusDispatch 404 (.dict [("error", .str "not here")]) = .typeError :=
  ⟨rfl, rfl, rfl⟩

/-- C3: every response with status in 200..299 raises nothing and returns
the decoded body unchanged. -/
theorem c3_success_returns_decoded_body (r : Response) (data : PyVal)
    (h1 : 200 ≤ r.status) (h2 : r.status < 300)
    (hd : jsonTextOrBytes r = some data) :
    requestOutcome r = .outcome (.success data) := by
  unfold requestOutcome
  rw [hd]
  have h400 : ¬r.status = 400 := by omega
  have h401 : ¬r.status = 401 := by omega
  have h403 : ¬r.status = 403 := by omega
  have h404 : ¬r.status = 404 := by omega
  have h405 : ¬(405 ≤ r.status ∧ r.status < 500) := by omega
  have h500 : ¬500 ≤ r.status := by omega
  simp only [statusDispatch, if_neg h400, if_neg h401, if_neg h403, if_neg h404,
    if_neg h405, if_neg h500, if_pos (And.intro h1 h2)]

/-- Witness for C3 at a concrete 200 response with a text body. -/
theorem c3_success_returns_decoded_body_witness :
    200 ≤ (200 : Nat) ∧ (200 : Nat) < 300 ∧
    jsonTextOrBytes ⟨200, some "text/plain", [104, 105]⟩ = some (.str "hi") ∧
    requestOutcome ⟨200, some "text/plain", [104, 105]⟩ = .outcome (.success (.str "hi")) :=
  ⟨by omega, by omega, rfl,
    c3_success_returns_decoded_body ⟨200, some "text/plain", [104, 105]⟩ (.str "hi")
      (by decide) (by decide) rfl⟩

/-- Looking up the key just assigned yields the assigned value. -/
theorem strDictLookup_strDictSet (d : List (String × String)) (k v : String) :
    strDictLookup (strDictSet d k v) k = some v := by
  induction d with
  | nil => simp [strDictSet, strDictLookup]
  | cons kv rest ih =>
    obtain ⟨k2, v2⟩ := kv
    by_cases h : k2 = k
    · simp [strDictSet, strDictLookup, h]
    · simp [strDictSet, strDictLookup, h, ih]

/-- C4: whenever a `json` payload is supplied, the outgoing header dict
maps `Content-Type` to `application/json`, whatever headers the caller
supplied (and also when the caller supplied none). -/
theorem c4_json_forces_content_type (ua token : String)
    (callerHeaders : List (String × String)) :
    strDictLookup (buildHeaders ua token (some callerHeaders) true) "Content-Type" =
      some "application/json" ∧
    strDictLookup (buildHeaders ua token Option.none true) "Content-Type" =
      some "application/json" := by
  constructor <;> simp [buildHeaders, strDictLookup_strDictSet]

/-- C5: with quota kind `none`, `maxBytes` and `maxFiles` are both present
and null, whatever the value argument; with kind `by_bytes` and value 1000,
`maxBytes` is the string `"1000"` and `maxFiles` is absent; and `maxUrls`
is present exactly when the `max_urls` argument differs from the `MISSING`
sentinel, so an explicit `None` includes the key with a null value while an
omitted argument excludes it. -/
theorem c5_quota_payload (v : Option Int) (mu : MaybeMissing) (t : QuotaType)
    (o : Option Int) :
    pyDictLookup (generate_quota_payload .none v mu) "maxBytes" = some .none ∧
    pyDictLookup (generate_quota_payload .none v mu) "maxFiles" = some .none ∧
    pyDictLookup (generate_quota_payload .by_bytes (some 1000) mu) "maxBytes" =
      some (.str "1000") ∧
    pyDictLookup (generate_quota_payload .by_bytes (some 1000) mu) "maxFiles" =
      Option.none ∧
    pyDictHasKey (generate_quota_payload t v .missing) "maxUrls" = false ∧
    pyDictHasKey (generate_quota_payload t v (.given o)) "maxUrls" = true ∧
    pyDictLookup (generate_quota_payload t v (.given o)) "maxUrls" = optIntToPyVal o := by
  refine ⟨?_, ?_, ?_, ?_, ?_, ?_, ?_⟩ <;> cases mu <;> cases t <;>
    simp [generate_quota_payload, pyDictSet, pyDictLookup, pyDictHasKey, QuotaType.value,
      pyStr, pyRepr, optIntToPyVal] <;> rfl

/-- C6: the decoder keys on the exact `Content-Type` value:
`application/octet-stream` yields the raw bytes, `application/json` yields
the JSON parse of the UTF-8 text, anything else (including no header)
yields the UTF-8 text itself. -/
theorem c6_content_type_buckets (r : Response) :
    (r.contentType = some "application/octet-stream" →
      jsonTextOrBytes r = some (.bytes r.body)) ∧
    (r.contentType = some "application/json" →
      jsonTextOrBytes r = (utf8Decode r.body).bind toJson) ∧
    (r.contentType ≠ some "application/octet-stream" →
      r.contentType ≠ some "application/json" →
      jsonTextOrBytes r = (utf8Decode r.body).map PyVal.str) := by
  refine ⟨fun h => ?_, fun h => ?_, fun h1 h2 => ?_⟩
  · rw [jsonTextOrBytes, if_pos h]
  · have hne : r.contentType ≠ some "application/octet-stream" := by simp [h]
    rw [jsonTextOrBytes, if_neg hne]
    cases utf8Decode r.body with
    | none => rfl
    | some text => simp [h]
  · rw [jsonTextOrBytes, if_neg h1]
    cases utf8Decode r.body with
    | none => rfl
    | some text => simp [h2]

/-- Witness for C6 on a concrete response in each bucket. -/
theorem c6_content_type_buckets_witness :
    jsonTextOrBytes ⟨200, some "application/octet-stream", [0, 255]⟩ =
      some (.bytes [0, 255]) ∧
    jsonTextOrBytes ⟨200, some "application/json", [49]⟩ = some (.int 1) ∧
    jsonTextOrBytes ⟨200, some "text/plain; charset=utf-8", [104, 105]⟩ =
      some (.str "hi") := by
  refine ⟨(c6_content_type_buckets _).1 rfl, ?_, ?_⟩
  · have h := (c6_content_type_buckets ⟨200, some "application/json", [49]⟩).2.1 rfl
    rw [h]
    rfl
  · have h := (c6_content_type_buckets ⟨200, some "text/plain; charset=utf-8", [104, 105]⟩).2.2
      (by simp) (by simp)
    rw [h]
    rfl

/-- C8: any byte string starting with the 8-byte PNG signature sniffs as
`image/png` (the JPEG branch, checked first, cannot fire: the slice at
offsets 6..10 starts with `1A 0A`, never `JFIF`/`Exif`); any byte string
starting with `FF D8 FF` sniffs as `image/jpeg`; and any byte string
matching none of the known signatures sniffs as nothing. -/
theorem c8_magic_number_sniff :
    (∀ rest : List Nat, guess_mimetype_by_magicnumber (pngSig ++ rest) = some "image/png") ∧
    (∀ rest : List Nat,
      guess_mimetype_by_magicnumber ([0xff, 0xd8, 0xff] ++ rest) = some "image/jpeg") ∧
    (∀ data : List Nat, ¬matchesKnownSignature data →
      guess_mimetype_by_magicnumber data = Option.none) := by
  refine ⟨fun rest => ?_, fun rest => ?_, fun data h => ?_⟩
  · simp [guess_mimetype_by_magicnumber, pySlice, pyStartsWith, pngSig, jfifBytes, exifBytes]
  · simp [guess_mimetype_by_magicnumber, pySlice]
  · have h1 := fun hc => h (Or.inl hc)
    have h2 := fun hc => h (Or.inr (Or.inl hc))
    have h3 := fun hc => h (Or.inr (Or.inr (Or.inl hc)))
    have h4 := fun hc => h (Or.inr (Or.inr (Or.inr (Or.inl hc))))
    have h5 := fun hc => h (Or.inr (Or.inr (Or.inr (Or.inr (Or.inl hc)))))
    have h6 := fun hc => h (Or.inr (Or.inr (Or.inr (Or.inr (Or.inr (Or.inl hc))))))
    have h7 := fun hc =>
      h (Or.inr (Or.inr (Or.inr (Or.inr (Or.inr (Or.inr (Or.inl hc)))))))
    have h8 := fun hc =>
      h (Or.inr (Or.inr (Or.inr (Or.inr (Or.inr (Or.inr (Or.inr hc)))))))
    rw [guess_mimetype_by_magicnumber, if_neg h1, if_neg h2, if_neg h3, if_neg h4,
      if_neg h5, if_neg h6, if_neg h7, if_neg h8]

/-- Witness for C8 on concrete inputs: a PNG-signed input, a JPEG-signed
input, and four zero bytes matching no signature. -/
theorem c8_magic_number_sniff_witness :
    guess_mimetype_by_magicnumber (pngSig ++ [1, 2, 3]) = some "image/png" ∧
    guess_mimetype_by_magicnumber ([0xff, 0xd8, 0xff] ++ [0xe0]) = some "image/jpeg" ∧
    ¬matchesKnownSignature [0, 0, 0, 0] ∧
    guess_mimetype_by_magicnumber [0, 0, 0, 0] = Option.none :=
  ⟨c8_magic_number_sniff.1 [1, 2, 3], c8_magic_number_sniff.2.1 [0xe0],
    by unfold matchesKnownSignature; decide,
    c8_magic_number_sniff.2.2 [0, 0, 0, 0] (by unfold matchesKnownSignature; decide)⟩

/-- Every base64 digit character is in the alphabet. -/
theorem b64Char_mem (n : Nat) : b64Char n ∈ b64Alphabet := by
  by_cases h : n < b64Alphabet.length
  · rw [b64Char, List.getD_eq_getElem _ _ h]
    exact List.getElem_mem h
  · rw [b64Char, List.getD_eq_default _ _ (by omega)]
    decide

/-- A base64 digit character is never a character outside the alphabet. -/
theorem b64Char_ne (n : Nat) (c : Char) (hc : c ∉ b64Alphabet) : b64Char n ≠ c :=
  fun he => hc (he ▸ b64Char_mem n)

/-- Decoding a base64 digit recovers its 6-bit value. -/
theorem b64CharVal_b64Char (n : Nat) (h : n < 64) : b64CharVal (b64Char n) = some n := by
  interval_cases n <;> decide

/-- Encoder output consists of alphabet characters and `=` padding. -/
theorem b64EncodeChars_mem (bs : List Nat) :
    ∀ c ∈ b64EncodeChars bs, c ∈ b64Alphabet ∨ c = '=' := by
  induction bs using b64EncodeChars.induct with
  | case1 =>
    intro c hc
    simp [b64EncodeChars] at hc
  | case2 a =>
    intro c hc
    rcases (by simpa [b64EncodeChars] using hc : c = b64Char (a / 4) ∨
        c = b64Char (a % 4 * 16) ∨ c = '=') with rfl | rfl | rfl
    · exact Or.inl (b64Char_mem _)
    · exact Or.inl (b64Char_mem _)
    · exact Or.inr rfl
  | case3 a b =>
    intro c hc
    rcases (by simpa [b64EncodeChars] using hc : c = b64Char (a / 4) ∨
        c = b64Char (a % 4 * 16 + b / 16) ∨ c = b64Char (b % 16 * 4) ∨ c = '=') with
      rfl | rfl | rfl | rfl
    · exact Or.inl (b64Char_mem _)
    · exact Or.inl (b64Char_mem _)
    · exact Or.inl (b64Char_mem _)
    · exact Or.inr rfl
  | case4 a b c rest ih =>
    intro d hd
    rcases (by simpa [b64EncodeChars] using hd : d = b64Char (a / 4) ∨
        d = b64Char (a % 4 * 16 + b / 16) ∨ d = b64Char (b % 16 * 4 + c / 64) ∨
        d = b64Char (c % 64) ∨ d ∈ b64EncodeChars rest) with rfl | rfl | rfl | rfl | hmem
    · exact Or.inl (b64Char_mem _)
    · exact Or.inl (b64Char_mem _)
    · exact Or.inl (b64Char_mem _)
    · exact Or.inl (b64Char_mem _)
    · exact ih d hmem

/-- No semicolon ever appears in encoder output. -/
theorem b64EncodeChars_no_semicolon (bs : List Nat) : ';' ∉ b64EncodeChars bs := by
  intro h
  rcases b64EncodeChars_mem bs ';' h with hmem | he
  · exact absurd hmem (by decide)
  · exact absurd he (by decide)

/-- Decoding inverts encoding on byte sequences. -/
theorem b64DecodeChars_b64EncodeChars (bs : List Nat) (h : ∀ b ∈ bs, b < 256) :
    b64DecodeChars (b64EncodeChars bs) = some bs := by
  induction bs using b64EncodeChars.induct with
  | case1 => rfl
  | case2 a =>
    have ha : a < 256 := h a (by simp)
    simp only [b64EncodeChars, b64DecodeChars,
      b64CharVal_b64Char (a / 4) (by omega), b64CharVal_b64Char (a % 4 * 16) (by omega)]
    simp
    omega
  | case3 a b =>
    have ha : a < 256 := h a (by simp)
    have hb : b < 256 := h b (by simp)
    simp only [b64EncodeChars, b64DecodeChars,
      b64CharVal_b64Char (a / 4) (by omega),
      b64CharVal_b64Char (a % 4 * 16 + b / 16) (by omega),
      b64CharVal_b64Char (b % 16 * 4) (by omega),
      b64Char_ne (b % 16 * 4) '=' (by decide)]
    simp
    omega
  | case4 a b c rest ih =>
    have ha : a < 256 := h a (by simp)
    have hb : b < 256 := h b (by simp)
    have hc : c < 256 := h c (by simp)
    have hrest : ∀ x ∈ rest, x < 256 := fun x hx => h x (by simp [hx])
    simp only [b64EncodeChars, b64DecodeChars,
      b64CharVal_b64Char (a / 4) (by omega),
      b64CharVal_b64Char (a % 4 * 16 + b / 16) (by omega),
      b64CharVal_b64Char (b % 16 * 4 + c / 64) (by omega),
      b64CharVal_b64Char (c % 64) (by omega),
      b64Char_ne (b % 16 * 4 + c / 64) '=' (by decide),
      b64Char_ne (c % 64) '=' (by decide), ih hrest]
    simp
    omega

/-- Fact: `str.split` on a list with no separator yields the single segment. -/
theorem pySplitOn_not_mem (sep : Char) (xs : List Char) (h : sep ∉ xs) :
    pySplitOn sep xs = [xs] := by
  induction xs with
  | nil => rfl
  | cons c cs ih =>
    have hc : ¬c = sep := fun he => h (by simp [he])
    have hcs : sep ∉ cs := fun hm => h (by simp [hm])
    simp [pySplitOn, hc, ih hcs]

/-- Fact: `str.split` at the first separator. -/
theorem pySplitOn_append (sep : Char) (xs ys : List Char) (h : sep ∉ xs) :
    pySplitOn sep (xs ++ sep :: ys) = xs :: pySplitOn sep ys := by
  induction xs with
  | nil => simp [pySplitOn]
  | cons c cs ih =>
    have hc : ¬c = sep := fun he => h (by simp [he])
    have hcs : sep ∉ cs := fun hm => h (by simp [hm])
    simp [pySplitOn, hc, ih hcs]

/-- The characters of an avatar payload, split into the part before the
single semicolon and the part after it. -/
theorem build_avatar_payload_data (ml : List Char) (data : List Nat) :
    (build_avatar_payload (String.mk ml) data).data =
      ('d' :: 'a' :: 't' :: 'a' :: ':' :: ml) ++
        ';' :: ('b' :: 'a' :: 's' :: 'e' :: '6' :: '4' :: ',' :: b64EncodeChars data) := by
  have h : (build_avatar_payload (String.mk ml) data).data =
      (("data:".data ++ ml) ++ ";base64,".data) ++ b64EncodeChars data := rfl
  rw [h, List.append_assoc, List.append_assoc]
  rfl

/-- C9 (amended): for bytes `data` and every *nonempty* MIME string
containing no `;`, encoding produces `data:<mime>;base64,<base64-of-data>`
and decoding it recovers exactly `(mime, data)`.  (For the empty MIME
string — which also contains no `;` — the claim fails: see the
counterexample.) -/
theorem c9_avatar_round_trip (mime : String) (data : List Nat)
    (hmime : mime ≠ "") (hsemi : ';' ∉ mime.data) (hbytes : ∀ b ∈ data, b < 256) :
    build_avatar_payload mime data = "data:" ++ mime ++ ";base64," ++ b64Encode data ∧
    from_coded_string (build_avatar_payload mime data) = some (mime, data) := by
  refine ⟨rfl, ?_⟩
  obtain ⟨ml⟩ := mime
  rw [from_coded_string, build_avatar_payload_data]
  rw [pySplitOn_append ';' _ _ ?side1]
  case side1 =>
    intro hmem
    rcases List.mem_cons.mp hmem with he | hmem2
    · exact absurd he (by decide)
    rcases List.mem_cons.mp hmem2 with he | hmem3
    · exact absurd he (by decide)
    rcases List.mem_cons.mp hmem3 with he | hmem4
    · exact absurd he (by decide)
    rcases List.mem_cons.mp hmem4 with he | hmem5
    · exact absurd he (by decide)
    rcases List.mem_cons.mp hmem5 with he | hmem6
    · exact absurd he (by decide)
    · exact hsemi hmem6
  rw [pySplitOn_not_mem ';' _ ?side2]
  case side2 =>
    intro hmem
    simp only [List.mem_cons] at hmem
    rcases hmem with he | he | he | he | he | he | he | hmem2
    · exact absurd he (by decide)
    · exact absurd he (by decide)
    · exact absurd he (by decide)
    · exact absurd he (by decide)
    · exact absurd he (by decide)
    · exact absurd he (by decide)
    · exact absurd he (by decide)
    · exact b64EncodeChars_no_semicolon data hmem2
  show (match b64Decode (pyStrDrop (String.mk _) 7) with
    | some d =>
      if pyStrDrop (String.mk ('d' :: 'a' :: 't' :: 'a' :: ':' :: ml)) 5 = "" then _ else
        some (pyStrDrop (String.mk ('d' :: 'a' :: 't' :: 'a' :: ':' :: ml)) 5, d)
    | Option.none => Option.none) = some (String.mk ml, data)
  have hdec : b64Decode (pyStrDrop
      (String.mk ('b' :: 'a' :: 's' :: 'e' :: '6' :: '4' :: ',' :: b64EncodeChars data)) 7) =
      some data := b64DecodeChars_b64EncodeChars data hbytes
  rw [hdec]
  have hdrop : pyStrDrop (String.mk ('d' :: 'a' :: 't' :: 'a' :: ':' :: ml)) 5 =
      String.mk ml := rfl
  rw [hdrop]
  simp only [if_neg hmime]

/-- Counterexample for C9 as frozen: the empty string contains no `;`,
yet decoding its encoding of the PNG signature substitutes the sniffed
MIME type `image/png`, so decode is not the exact inverse of encode. -/
theorem c9_avatar_round_trip_counterexample :
    from_coded_string (build_avatar_payload "" pngSig) = some ("image/png", pngSig) ∧
    some (("image/png" : String), pngSig) ≠ some (("" : String), pngSig) := by
  constructor
  · rfl
  · simp

/-- Witness for C9 on a concrete MIME type and byte string. -/
theorem c9_avatar_round_trip_witness :
    ("image/png" : String) ≠ "" ∧ ';' ∉ "image/png".data ∧
    from_coded_string (build_avatar_payload "image/png" [137, 80, 78, 71, 255]) =
      some ("image/png", [137, 80, 78, 71, 255]) :=
  ⟨by decide, by decide,
    (c9_avatar_round_trip "image/png" [137, 80, 78, 71, 255] (by decide) (by decide)
      (by decide)).2⟩

/-- Fact: `breakAt` splits exactly at the first character satisfying `p`. -/
theorem breakAt_eq (p : Char → Bool) (xs ys : List Char)
    (hxs : ∀ c ∈ xs, p c = false)
    (hys : ys = [] ∨ ∃ c t, ys = c :: t ∧ p c = true) :
    breakAt p (xs ++ ys) = (xs, ys) := by
  induction xs with
  | nil =>
    rcases hys with rfl | ⟨c, t, rfl, hc⟩
    · rfl
    · simp [breakAt, hc]
  | cons c cs ih =>
    have hc : p c = false := hxs c (by simp)
    have hcs : ∀ d ∈ cs, p d = false := fun d hd => hxs d (by simp [hd])
    simp [breakAt, hc, ih hcs]

/-- With no `@` present, `afterLastAt` is the identity. -/
theorem afterLastAt_of_not_mem (cs : List Char) (h : '@' ∉ cs) : afterLastAt cs = cs := by
  rw [afterLastAt, ← List.append_nil cs.reverse,
    breakAt_eq _ cs.reverse [] (fun c hc => by
      simp only [decide_eq_false_iff_not]
      intro he
      exact h (List.mem_reverse.mp (he ▸ hc))) (Or.inl rfl)]
  simp

/-- A decimal digit is none of the URL delimiter characters. -/
theorem isDigit_not_delim (c : Char) (h : c.isDigit = true) :
    c ≠ ':' ∧ c ≠ '/' ∧ c ≠ '?' ∧ c ≠ '#' ∧ c ≠ '@' := by
  refine ⟨?_, ?_, ?_, ?_, ?_⟩ <;> rintro rfl <;> exact absurd h (by decide)

/-- C10: normalizing a base URL that carries an explicit port and a
path/query keeps only `scheme://host`: the port is discarded together with
everything after the authority. -/
theorem c10_base_url_normalization (scheme host port tail : List Char)
    (hscheme : ∀ c ∈ scheme, c ≠ ':' ∧ c.toLower = c)
    (hhost : ∀ c ∈ host,
      (c ≠ ':' ∧ c ≠ '/' ∧ c ≠ '?' ∧ c ≠ '#' ∧ c ≠ '@') ∧ c.toLower = c)
    (hport : ∀ c ∈ port, c.isDigit = true)
    (htail : tail = [] ∨ ∃ c t, tail = c :: t ∧ (c = '/' ∨ c = '?' ∨ c = '#')) :
    normalizeBaseUrl
        (String.mk (scheme ++ ':' :: '/' :: '/' :: (host ++ ':' :: (port ++ tail)))) =
      some (String.mk (scheme ++ ':' :: '/' :: '/' :: host)) := by
  have hmap1 : scheme.map Char.toLower = scheme :=
    (List.map_congr_left fun c hc => (hscheme c hc).2).trans (List.map_id scheme)
  have hmap2 : host.map Char.toLower = host :=
    (List.map_congr_left fun c hc => (hhost c hc).2).trans (List.map_id host)
  have hb2 : breakAt (fun c => c = '/' || c = '?' || c = '#')
      (host ++ ':' :: (port ++ tail)) = (host ++ ':' :: port, tail) := by
    have harg : host ++ ':' :: (port ++ tail) = (host ++ ':' :: port) ++ tail :=
      (List.append_assoc host (':' :: port) tail).symm
    rw [harg]
    refine breakAt_eq _ _ _ ?_ ?_
    · intro c hc
      rcases List.mem_append.mp hc with hmem | hmem
      · have h3 := (hhost c hmem).1
        simp [h3.2.1, h3.2.2.1, h3.2.2.2.1]
      · rcases List.mem_cons.mp hmem with rfl | hmem2
        · decide
        · have h3 := isDigit_not_delim c (hport c hmem2)
          simp [h3.2.1, h3.2.2.1, h3.2.2.2.1]
    · rcases htail with rfl | ⟨c, t, rfl, hc⟩
      · exact Or.inl rfl
      · refine Or.inr ⟨c, t, rfl, ?_⟩
        rcases hc with rfl | rfl | rfl <;> decide
  have hafter : afterLastAt (host ++ ':' :: port) = host ++ ':' :: port := by
    refine afterLastAt_of_not_mem _ ?_
    intro hmem
    rcases List.mem_append.mp hmem with hmem2 | hmem2
    · exact ((hhost '@' hmem2).1.2.2.2.2) rfl
    · rcases List.mem_cons.mp hmem2 with he | hmem3
      · exact absurd he (by decide)
      · exact (isDigit_not_delim '@' (hport '@' hmem3)).2.2.2.2 rfl
  have hb3 : breakAt (fun c => c = ':') (host ++ ':' :: port) = (host, ':' :: port) :=
    breakAt_eq _ _ _ (fun c hc => by simp [(hhost c hc).1.1])
      (Or.inr ⟨':', _, rfl, by simp⟩)
  have hparse : parseUrl (scheme ++ ':' :: '/' :: '/' :: (host ++ ':' :: (port ++ tail))) =
      some (scheme, host) := by
    unfold parseUrl
    rw [breakAt_eq _ scheme (':' :: '/' :: '/' :: (host ++ ':' :: (port ++ tail)))
      (fun c hc => by simp [(hscheme c hc).1])
      (Or.inr ⟨':', _, rfl, by simp⟩)]
    show some (List.map Char.toLower scheme,
        List.map Char.toLower
          (breakAt (fun c => c = ':')
            (afterLastAt
              (breakAt (fun c => c = '/' || c = '?' || c = '#')
                (host ++ ':' :: (port ++ tail))).1)).1) = some (scheme, host)
    rw [hb2]
    show some (List.map Char.toLower scheme,
        List.map Char.toLower
          (breakAt (fun c => c = ':') (afterLastAt (host ++ ':' :: port))).1) =
      some (scheme, host)
    rw [hafter, hb3]
    show some (List.map Char.toLower scheme, List.map Char.toLower host) = some (scheme, host)
    rw [hmap1, hmap2]
  simp only [normalizeBaseUrl, hparse]
  simp [List.append_assoc]

/-- Witness for C10 at the example URL of the spec. -/
theorem c10_base_url_normalization_witness :
    normalizeBaseUrl "https://example.com:8080/some/path" = some "https://example.com" := by
  have h := c10_base_url_normalization "https".data "example.com".data "8080".data
    "/some/path".data (by decide) (by decide) (by decide)
    (Or.inr ⟨'/', "some/path".data, rfl, Or.inl rfl⟩)
  exact h

/-- Fact: `isDig` holds on digit characters. -/
theorem isDig_digitChar (n : Nat) (h : n < 10) : isDig (digitChar n) = true := by
  interval_cases n <;> decide

/-- Fact: `digVal` inverts `digitChar`. -/
theorem digVal_digitChar (n : Nat) (h : n < 10) : digVal (digitChar n) = n := by
  interval_cases n <;> decide

/-- Fact: `Char.isDigit` holds on digit characters. -/
theorem charIsDigit_digitChar (n : Nat) (h : n < 10) : (digitChar n).isDigit = true := by
  interval_cases n <;> decide

/-- Fact: `digitChar` is injective below 10. -/
theorem digitChar_eq_iff (a b : Nat) (ha : a < 10) (hb : b < 10) :
    digitChar a = digitChar b ↔ a = b := by
  interval_cases a <;> interval_cases b <;> decide

/-- Fact: `%m` on a two-digit month followed by anything: the month value is the
first candidate. -/
theorem monthCands_head (mo : Nat) (rest : List Char) (h1 : 1 ≤ mo) (h2 : mo ≤ 12) :
    ∃ t, monthCands (pad2 mo ++ rest) = (mo, rest) :: t := by
  have e1 : mo / 10 % 10 = mo / 10 := by omega
  simp only [pad2, e1, List.cons_append, List.nil_append, monthCands]
  by_cases hlt : mo < 10
  · have e2 : mo / 10 = 0 := by omega
    have e3 : mo % 10 = mo := by omega
    rw [e2, e3]
    simp [show digitChar 0 = '0' from rfl, show digVal '0' = 0 from rfl,
      isDig_digitChar mo hlt, digVal_digitChar mo hlt, h1]
  · have e2 : mo / 10 = 1 := by omega
    rw [e2]
    have hm2 : mo % 10 ≤ 2 := by omega
    have hv : 10 + mo % 10 = mo := by omega
    simp [show digitChar 1 = '1' from rfl, show digVal '1' = 1 from rfl,
      show isDig '1' = true from rfl,
      isDig_digitChar (mo % 10) (by omega), digVal_digitChar (mo % 10) (by omega),
      hm2, hv]

/-- Fact: `%d` on a two-digit day. -/
theorem dayCands_head (d : Nat) (rest : List Char) (h1 : 1 ≤ d) (h2 : d ≤ 31) :
    ∃ t, dayCands (pad2 d ++ rest) = (d, rest) :: t := by
  have e1 : d / 10 % 10 = d / 10 := by omega
  simp only [pad2, e1, List.cons_append, List.nil_append, dayCands]
  by_cases hlt : d < 10
  · have e2 : d / 10 = 0 := by omega
    have e3 : d % 10 = d := by omega
    rw [e2, e3]
    simp [show digitChar 0 = '0' from rfl, show digVal '0' = 0 from rfl,
      isDig_digitChar d hlt, digVal_digitChar d hlt, h1]
  · by_cases h30 : d < 30
    · rcases (by omega : d / 10 = 1 ∨ d / 10 = 2) with e2 | e2
      · rw [e2]
        simp [show digitChar 1 = '1' from rfl, show digVal '1' = 1 from rfl,
          show isDig '1' = true from rfl,
          isDig_digitChar (d % 10) (by omega), digVal_digitChar (d % 10) (by omega),
          (by omega : 1 * 10 + d % 10 = d)]
      · rw [e2]
        simp [show digitChar 2 = '2' from rfl, show digVal '2' = 2 from rfl,
          show isDig '2' = true from rfl,
          isDig_digitChar (d % 10) (by omega), digVal_digitChar (d % 10) (by omega),
          (by omega : 2 * 10 + d % 10 = d)]
    · have e2 : d / 10 = 3 := by omega
      rw [e2]
      have hm2 : d % 10 ≤ 1 := by omega
      have hv : 30 + d % 10 = d := by omega
      simp [show digitChar 3 = '3' from rfl, show digVal '3' = 3 from rfl,
        show isDig '3' = true from rfl,
        isDig_digitChar (d % 10) (by omega), digVal_digitChar (d % 10) (by omega),
        hm2, hv]

/-- Fact: `%H` on a two-digit hour. -/
theorem hourCands_head (h : Nat) (rest : List Char) (h2 : h ≤ 23) :
    ∃ t, hourCands (pad2 h ++ rest) = (h, rest) :: t := by
  have e1 : h / 10 % 10 = h / 10 := by omega
  simp only [pad2, e1, List.cons_append, List.nil_append, hourCands]
  by_cases hlt : h < 20
  · rcases (by omega : h / 10 = 0 ∨ h / 10 = 1) with e2 | e2
    · rw [e2]
      simp [show digitChar 0 = '0' from rfl, show digVal '0' = 0 from rfl,
        show isDig '0' = true from rfl,
        isDig_digitChar (h % 10) (by omega), digVal_digitChar (h % 10) (by omega),
        (by omega : 0 * 10 + h % 10 = h)]
      omega
    · rw [e2]
      simp [show digitChar 1 = '1' from rfl, show digVal '1' = 1 from rfl,
        show isDig '1' = true from rfl,
        isDig_digitChar (h % 10) (by omega), digVal_digitChar (h % 10) (by omega),
        (by omega : 1 * 10 + h % 10 = h)]
  · have e2 : h / 10 = 2 := by omega
    rw [e2]
    have hm2 : h % 10 ≤ 3 := by omega
    have hv : 20 + h % 10 = h := by omega
    simp [show digitChar 2 = '2' from rfl, show digVal '2' = 2 from rfl,
      show isDig '2' = true from rfl,
      isDig_digitChar (h % 10) (by omega), digVal_digitChar (h % 10) (by omega),
      hm2, hv]

/-- Fact: `%M` on a two-digit minute. -/
theorem minuteCands_head (m : Nat) (rest : List Char) (h2 : m ≤ 59) :
    ∃ t, minuteCands (pad2 m ++ rest) = (m, rest) :: t := by
  have e1 : m / 10 % 10 = m / 10 := by omega
  simp only [pad2, e1, List.cons_append, List.nil_append, minuteCands]
  have hv : m / 10 * 10 + m % 10 = m := by omega
  simp [isDig_digitChar (m / 10) (by omega), digVal_digitChar (m / 10) (by omega),
    isDig_digitChar (m % 10) (by omega), digVal_digitChar (m % 10) (by omega),
    (by omega : m / 10 ≤ 5), hv]

/-- Fact: `%S` on a two-digit second. -/
theorem secondCands_head (s : Nat) (rest : List Char) (h2 : s ≤ 59) :
    ∃ t, secondCands (pad2 s ++ rest) = (s, rest) :: t := by
  have e1 : s / 10 % 10 = s / 10 := by omega
  simp only [pad2, e1, List.cons_append, List.nil_append, secondCands]
  have hv : s / 10 * 10 + s % 10 = s := by omega
  have hne6 : ¬digitChar (s / 10) = '6' := fun he =>
    absurd ((digitChar_eq_iff (s / 10) 6 (by omega) (by omega)).mp he) (by omega)
  simp [isDig_digitChar (s / 10) (by omega), digVal_digitChar (s / 10) (by omega),
    isDig_digitChar (s % 10) (by omega), digVal_digitChar (s % 10) (by omega),
    (by omega : s / 10 ≤ 5), hv, hne6]

/-- Fact: `%Y` on a four-digit year is the unique candidate. -/
theorem yearCands_pad4 (y : Nat) (rest : List Char) (h : y ≤ 9999) :
    yearCands (pad4 y ++ rest) = [(y, rest)] := by
  have e1 : y / 1000 % 10 = y / 1000 := by omega
  simp only [pad4, e1, List.cons_append, List.nil_append, yearCands]
  have hv : y / 1000 * 1000 + y / 100 % 10 * 100 + y / 10 % 10 * 10 + y % 10 = y := by
    omega
  simp [isDig_digitChar (y / 1000) (by omega), digVal_digitChar (y / 1000) (by omega),
    isDig_digitChar (y / 100 % 10) (by omega), digVal_digitChar (y / 100 % 10) (by omega),
    isDig_digitChar (y / 10 % 10) (by omega), digVal_digitChar (y / 10 % 10) (by omega),
    isDig_digitChar (y % 10) (by omega), digVal_digitChar (y % 10) (by omega), hv]

/-- The `digitsToNat` step function inverts `digitChar`. -/
theorem toNat_digitChar (n : Nat) (h : n < 10) : (digitChar n).toNat - 48 = n :=
  digVal_digitChar n h

/-- Fact: `takeDigits` splits exactly at the first non-digit. -/
theorem takeDigits_eq (xs ys : List Char) (hxs : ∀ c ∈ xs, c.isDigit = true)
    (hys : ys = [] ∨ ∃ c t, ys = c :: t ∧ c.isDigit = false) :
    takeDigits (xs ++ ys) = (xs, ys) := by
  induction xs with
  | nil =>
    rcases hys with rfl | ⟨c, t, rfl, hc⟩
    · rfl
    · simp [takeDigits, hc]
  | cons c cs ih =>
    have hc : c.isDigit = true := hxs c (by simp)
    have hcs : ∀ d ∈ cs, d.isDigit = true := fun d hd => hxs d (by simp [hd])
    simp [takeDigits, hc, ih hcs]

/-- Fact: `%f` then the literal `Z` then end of string, on a six-digit
fraction: the greedy longest candidate wins and carries no padding. -/
theorem stageFrac_pad6 (us : Nat) (h : us < 1000000) :
    stageFrac (pad6 us ++ ['Z']) = some us := by
  have hdigits : ∀ c ∈ pad6 us, c.isDigit = true := by
    intro c hc
    simp only [pad6, List.mem_cons] at hc
    rcases hc with rfl | rfl | rfl | rfl | rfl | rfl | hfalse
    · exact charIsDigit_digitChar _ (by omega)
    · exact charIsDigit_digitChar _ (by omega)
    · exact charIsDigit_digitChar _ (by omega)
    · exact charIsDigit_digitChar _ (by omega)
    · exact charIsDigit_digitChar _ (by omega)
    · exact charIsDigit_digitChar _ (by omega)
    · simp at hfalse
  rw [stageFrac, fracCands,
    takeDigits_eq (pad6 us) ['Z'] hdigits (Or.inr ⟨'Z', [], rfl, by decide⟩)]
  show some (digitsToNat (pad6 us) * 10 ^ (6 - 6)) = some us
  have hd : digitsToNat (pad6 us) = us := by
    simp only [pad6, digitsToNat, List.foldl]
    rw [toNat_digitChar (us / 100000 % 10) (by omega),
      toNat_digitChar (us / 10000 % 10) (by omega),
      toNat_digitChar (us / 1000 % 10) (by omega),
      toNat_digitChar (us / 100 % 10) (by omega),
      toNat_digitChar (us / 10 % 10) (by omega),
      toNat_digitChar (us % 10) (by omega)]
    omega
  rw [hd]
  simp

/-- Fact: `%S.%fZ` on a padded second and fraction. -/
theorem stageSecond_eq (s us : Nat) (hs : s ≤ 59) (hus : us < 1000000) :
    stageSecond (pad2 s ++ '.' :: (pad6 us ++ ['Z'])) = some (s, us) := by
  obtain ⟨t, ht⟩ := secondCands_head s ('.' :: (pad6 us ++ ['Z'])) hs
  rw [stageSecond, ht]
  simp only [List.map_cons]
  rw [stageFrac_pad6 us hus]
  rfl

/-- Fact: `%M:%S.%fZ`. -/
theorem stageMinute_eq (mi s us : Nat) (hmi : mi ≤ 59) (hs : s ≤ 59)
    (hus : us < 1000000) :
    stageMinute (pad2 mi ++ ':' :: (pad2 s ++ '.' :: (pad6 us ++ ['Z']))) =
      some (mi, s, us) := by
  obtain ⟨t, ht⟩ := minuteCands_head mi (':' :: (pad2 s ++ '.' :: (pad6 us ++ ['Z']))) hmi
  rw [stageMinute, ht]
  simp only [List.map_cons]
  rw [stageSecond_eq s us hs hus]
  rfl

/-- Fact: `%H:%M:%S.%fZ`. -/
theorem stageHour_eq (h mi s us : Nat) (hh : h ≤ 23) (hmi : mi ≤ 59) (hs : s ≤ 59)
    (hus : us < 1000000) :
    stageHour (pad2 h ++ ':' :: (pad2 mi ++ ':' :: (pad2 s ++ '.' :: (pad6 us ++ ['Z'])))) =
      some (h, mi, s, us) := by
  obtain ⟨t, ht⟩ := hourCands_head h _ hh
  rw [stageHour, ht]
  simp only [List.map_cons]
  rw [stageMinute_eq mi s us hmi hs hus]
  rfl

/-- Fact: `%dT%H:%M:%S.%fZ`. -/
theorem stageDay_eq (d h mi s us : Nat) (hd1 : 1 ≤ d) (hd2 : d ≤ 31) (hh : h ≤ 23)
    (hmi : mi ≤ 59) (hs : s ≤ 59) (hus : us < 1000000) :
    stageDay (pad2 d ++ 'T' ::
        (pad2 h ++ ':' :: (pad2 mi ++ ':' :: (pad2 s ++ '.' :: (pad6 us ++ ['Z']))))) =
      some (d, h, mi, s, us) := by
  obtain ⟨t, ht⟩ := dayCands_head d _ hd1 hd2
  rw [stageDay, ht]
  simp only [List.map_cons]
  rw [stageHour_eq h mi s us hh hmi hs hus]
  rfl

/-- Fact: `%m-%dT%H:%M:%S.%fZ`. -/
theorem stageMonth_eq (mo d h mi s us : Nat) (hmo1 : 1 ≤ mo) (hmo2 : mo ≤ 12)
    (hd1 : 1 ≤ d) (hd2 : d ≤ 31) (hh : h ≤ 23) (hmi : mi ≤ 59) (hs : s ≤ 59)
    (hus : us < 1000000) :
    stageMonth (pad2 mo ++ '-' :: (pad2 d ++ 'T' ::
        (pad2 h ++ ':' :: (pad2 mi ++ ':' :: (pad2 s ++ '.' :: (pad6 us ++ ['Z'])))))) =
      some (mo, d, h, mi, s, us) := by
  obtain ⟨t, ht⟩ := monthCands_head mo _ hmo1 hmo2
  rw [stageMonth, ht]
  simp only [List.map_cons]
  rw [stageDay_eq d h mi s us hd1 hd2 hh hmi hs hus]
  rfl

/-- The whole format on a rendered exact-form string. -/
theorem stageYear_renderIso (y mo d h mi s us : Nat) (hy : y ≤ 9999)
    (hmo1 : 1 ≤ mo) (hmo2 : mo ≤ 12) (hd1 : 1 ≤ d) (hd2 : d ≤ 31) (hh : h ≤ 23)
    (hmi : mi ≤ 59) (hs : s ≤ 59) (hus : us < 1000000) :
    stageYear (renderIso y mo d h mi s us) = some (y, mo, d, h, mi, s, us) := by
  have hr : renderIso y mo d h mi s us = pad4 y ++ '-' :: (pad2 mo ++ '-' :: (pad2 d ++
      'T' :: (pad2 h ++ ':' :: (pad2 mi ++ ':' :: (pad2 s ++ '.' ::
        (pad6 us ++ ['Z'])))))) := by
    simp [renderIso, List.append_assoc]
  rw [stageYear, hr, yearCands_pad4 y _ hy]
  simp only [List.map_cons]
  rw [stageMonth_eq mo d h mi s us hmo1 hmo2 hd1 hd2 hh hmi hs hus]
  rfl

/-- No month has more than 31 days. -/
theorem daysInMonth_le (y m : Nat) : daysInMonth y m ≤ 31 := by
  rw [daysInMonth]
  split
  · split <;> omega
  · split <;> omega

/-- For four-digit years, the unpadded glibc `%Y` coincides with the
four-digit rendering. -/
theorem natDecimal_eq_pad4 (y : Nat) (h1 : 1000 ≤ y) (h2 : y ≤ 9999) :
    natDecimal y = pad4 y := by
  rw [natDecimal, dif_neg (by omega : ¬y < 10),
    natDecimal, dif_neg (by omega : ¬y / 10 < 10),
    natDecimal, dif_neg (by omega : ¬y / 10 / 10 < 10),
    natDecimal, dif_pos (by omega : y / 10 / 10 / 10 < 10)]
  have e3 : y / 10 / 10 / 10 = y / 1000 % 10 := by omega
  have e2 : y / 10 / 10 % 10 = y / 100 % 10 := by omega
  rw [e3, e2, pad4]
  rfl

/-- C7 (amended): for every exact-form string
`YYYY-MM-DDTHH:MM:SS.ffffffZ` denoting a valid timestamp *whose year
field is at least 1000*, parsing yields the UTC-aware timestamp with
those fields and formatting it back returns the original string.  (For
years below 1000 the claim fails on Linux/glibc, where `%Y` prints the
year unpadded: see the counterexample.) -/
theorem c7_iso_round_trip (y mo d h mi s us : Nat)
    (hv : datetimeValid y mo d h mi s us = true) (hy : 1000 ≤ y) :
    parse_iso_timestamp (String.mk (renderIso y mo d h mi s us)) =
      some ⟨y, mo, d, h, mi, s, us, true⟩ ∧
    to_iso_format ⟨y, mo, d, h, mi, s, us, true⟩ =
      String.mk (renderIso y mo d h mi s us) := by
  have hb := of_decide_eq_true hv
  obtain ⟨hb1, hb2, hb3, hb4, hb5, hb6, hb7, hb8, hb9, hb10⟩ := hb
  have hd31 : d ≤ 31 := le_trans hb6 (daysInMonth_le y mo)
  constructor
  · rw [parse_iso_timestamp]
    show (match stageYear (renderIso y mo d h mi s us) with
      | some (y, mo, d, h, mi, sec, us) =>
        if datetimeValid y mo d h mi sec us = true then
          some (⟨y, mo, d, h, mi, sec, us, true⟩ : PyDateTime)
        else Option.none
      | Option.none => Option.none) = some ⟨y, mo, d, h, mi, s, us, true⟩
    rw [stageYear_renderIso y mo d h mi s us hb2 hb3 hb4 hb5 hd31 hb7 hb8 hb9
      (by omega)]
    simp only [if_pos hv]
  · rw [to_iso_format]
    show String.mk (natDecimal y ++ '-' :: pad2 mo ++ '-' :: pad2 d ++ 'T' :: pad2 h ++
      ':' :: pad2 mi ++ ':' :: pad2 s ++ '.' :: pad6 us ++ ['Z']) =
      String.mk (renderIso y mo d h mi s us)
    rw [natDecimal_eq_pad4 y hy hb2, renderIso]

/-- Counterexample for C7 as frozen: `"0999-01-01T00:00:00.000000Z"` is of
the exact form and denotes a valid UTC timestamp, but formatting the
parsed value yields `"999-01-01T00:00:00.000000Z"` (glibc prints `%Y`
unpadded), so the round trip is not the identity. -/
theorem c7_iso_round_trip_counterexample :
    parse_iso_timestamp "0999-01-01T00:00:00.000000Z" =
      some ⟨999, 1, 1, 0, 0, 0, 0, true⟩ ∧
    to_iso_format ⟨999, 1, 1, 0, 0, 0, 0, true⟩ = "999-01-01T00:00:00.000000Z" ∧
    to_iso_format ⟨999, 1, 1, 0, 0, 0, 0, true⟩ ≠ "0999-01-01T00:00:00.000000Z" := by
  have h999 : natDecimal 999 = ['9', '9', '9'] := by
    rw [natDecimal, dif_neg (by omega : ¬(999 : Nat) < 10),
      natDecimal, dif_neg (by omega : ¬(999 : Nat) / 10 < 10),
      natDecimal, dif_pos (by omega : (999 : Nat) / 10 / 10 < 10)]
    rfl
  have hfmt : to_iso_format ⟨999, 1, 1, 0, 0, 0, 0, true⟩ =
      "999-01-01T00:00:00.000000Z" := by
    rw [to_iso_format]
    show String.mk (natDecimal 999 ++ '-' :: pad2 1 ++ '-' :: pad2 1 ++ 'T' :: pad2 0 ++
      ':' :: pad2 0 ++ ':' :: pad2 0 ++ '.' :: pad6 0 ++ ['Z']) = _
    rw [h999]
    rfl
  refine ⟨by rfl, hfmt, ?_⟩
  rw [hfmt]
  decide

/-- Witness for C7 at a concrete timestamp. -/
theorem c7_iso_round_trip_witness :
    datetimeValid 2023 5 17 10 30 45 123456 = true ∧ 1000 ≤ 2023 ∧
    parse_iso_timestamp "2023-05-17T10:30:45.123456Z" =
      some ⟨2023, 5, 17, 10, 30, 45, 123456, true⟩ ∧
    to_iso_format ⟨2023, 5, 17, 10, 30, 45, 123456, true⟩ =
      "2023-05-17T10:30:45.123456Z" := by
  have h := c7_iso_round_trip 2023 5 17 10 30 45 123456 (by decide) (by omega)
  have hrender : String.mk (renderIso 2023 5 17 10 30 45 123456) =
      "2023-05-17T10:30:45.123456Z" := by decide
  exact ⟨by decide, by omega, by rw [← hrender]; exact h.1, by rw [← hrender]; exact h.2⟩

end Zipline
